import Mathlib

/-!
Verification of the obsidian-migration note-processing core.

This file is a shallow embedding, in Lean 4, of the structural parsing,
extraction and grouping functions of the repository (src/src/common.rs and
src/src/cluster_note.rs), together with theorems settling the frozen claims
about them.

Modelling conventions:
- The pulldown-cmark `Event` stream is modelled by the inductive `MdEvent`
  below.  Variants the source never inspects are collapsed into opaque
  constructors carrying a numeric tag, so that distinct unexamined events
  can still be distinguished by equality.
- Rust `String` is modelled by Lean `String`; character positions computed
  with `chars().position(...)` are modelled by `List.findIdx?` over
  `String.data`.  Byte indices of ASCII-only needles (such as `find("]]")`)
  coincide with character indices on the ASCII inputs exercised here.
- Rust `char::is_alphanumeric` is modelled by `Char.isAlphanum`; the two
  agree on ASCII, and every input analysed in this file is ASCII.
- Fallible Rust functions returning `Result`/`Option` become `Except`/
  `Option`; a reachable `panic!` / out-of-bounds index is modelled as a
  distinguished outcome (`Option.none` or a dedicated constructor), never
  silently absorbed.
-/

/-- Decidable equality for `Except`, so that concrete results of the
fallible embedded functions can be checked by `decide`. -/
instance instDecidableEqExcept {ε α : Type} [DecidableEq ε] [DecidableEq α] :
    DecidableEq (Except ε α) := fun x y =>
  match x, y with
  | .ok a, .ok b =>
    if h : a = b then isTrue (by rw [h])
    else isFalse (fun he => h (by cases he; rfl))
  | .error a, .error b =>
    if h : a = b then isTrue (by rw [h])
    else isFalse (fun he => h (by cases he; rfl))
  | .ok _, .error _ => isFalse (fun he => Except.noConfusion he)
  | .error _, .ok _ => isFalse (fun he => Except.noConfusion he)

namespace ObsidianMigration

/-- Heading levels of pulldown-cmark (`HeadingLevel`). -/
inductive HeadingLevel where
  | h1 | h2 | h3 | h4 | h5 | h6
  deriving DecidableEq, Repr, Inhabited

/-- Start tags (`pulldown_cmark::Tag`): the source only ever inspects
`Tag::Heading { level, .. }`; every other tag is opaque. -/
inductive MdTag where
  | heading (level : HeadingLevel)
  | otherTag (id : Nat)
  deriving DecidableEq, Repr, Inhabited

/-- End tags (`pulldown_cmark::TagEnd`): the source only ever inspects
`TagEnd::Heading(level)`. -/
inductive MdTagEnd where
  | heading (level : HeadingLevel)
  | otherTagEnd (id : Nat)
  deriving DecidableEq, Repr, Inhabited

/-- A pulldown-cmark `Event`.  `text`, `softBreak`, `rule`, `start` and
`end_` are the variants the source matches on; `code`, `hardBreak` and
`other` stand for the remaining variants it passes through unexamined. -/
inductive MdEvent where
  | start (tag : MdTag)
  | end_ (tag : MdTagEnd)
  | text (s : String)
  | code (s : String)
  | softBreak
  | hardBreak
  | rule
  | other (id : Nat)
  deriving DecidableEq, Repr, Inhabited

/-- Count occurrences of a character in a string
(Rust `s.chars().filter(|c| *c == ch).count()`). -/
def countChar (s : String) (ch : Char) : Nat :=
  (s.data.filter (fun c => c == ch)).length

/-- First index at which `needle` occurs as a contiguous sublist of `hay`
(character-level model of Rust `str::find` for ASCII needles). -/
def findSubIdx (hay needle : List Char) : Option Nat :=
  match hay with
  | [] => if needle.isEmpty then some 0 else none
  | _ :: t =>
    if needle.isPrefixOf hay then some 0
    else (findSubIdx t needle).map (· + 1)

/-- Character-level model of Rust `str::contains` for a substring needle. -/
def containsSub (hay needle : String) : Bool :=
  (findSubIdx hay.data needle.data).isSome

/-! ### Executable models of the Rust string primitives

The embedding avoids the built-in Lean `String.replace`, `splitOn`,
`trim`, `startsWith`, `endsWith`: those are defined by well-founded
recursion (or via `Substring`) and do not reduce inside the kernel, which
would make concrete instances unprovable by `decide`/`rfl`.  Instead the
Rust primitives are modelled directly on `String.data` by structural
recursion (fuelled by the string length where the step size is the
pattern length; every recursive call consumes at least one character, so
fuel `length` suffices and the fuel-exhaustion branches are unreachable
for the nonempty patterns the source uses). -/

/-- Fuelled worker for `rsReplace`: replace non-overlapping occurrences of
`pat` (nonempty) left to right. -/
def replaceAuxL : Nat → List Char → List Char → List Char → List Char
  | _, [], _, _ => []
  | 0, l, _, _ => l
  | fuel + 1, c :: t, pat, rep =>
    if pat.isPrefixOf (c :: t) then
      rep ++ replaceAuxL fuel ((c :: t).drop pat.length) pat rep
    else c :: replaceAuxL fuel t pat rep

/-- Rust `str::replace(pattern, replacement)`: every non-overlapping
occurrence of `pattern` is replaced, scanning left to right.  For an empty
pattern the source only ever substitutes an empty replacement, where
the Rust result is the original string. -/
def rsReplace (s pattern replacement : String) : String :=
  if pattern.data.isEmpty then s
  else String.mk (replaceAuxL s.data.length s.data pattern.data replacement.data)

/-- Fuelled worker for `rsSplitOn` (separator nonempty); `cur` is the
token being accumulated. -/
def splitOnAuxL : Nat → List Char → List Char → List Char → List (List Char)
  | _, [], _, cur => [cur]
  | 0, l, _, cur => [cur ++ l]
  | fuel + 1, c :: t, sep, cur =>
    if sep.isPrefixOf (c :: t) then
      cur :: splitOnAuxL fuel ((c :: t).drop sep.length) sep []
    else splitOnAuxL fuel t sep (cur ++ [c])

/-- Rust `str::split(sep).collect()` for a nonempty literal separator
(the source splits on `" "`, `"."`, `":"` and `"[["` only). -/
def rsSplitOn (s sep : String) : List String :=
  if sep.data.isEmpty then [s]
  else (splitOnAuxL s.data.length s.data sep.data []).map String.mk

/-- Rust `str::trim`: drop leading and trailing whitespace (the inputs
analysed here are ASCII, where Rust and Lean whitespace agree). -/
def rsTrim (s : String) : String :=
  String.mk (((s.data.dropWhile Char.isWhitespace).reverse.dropWhile
    Char.isWhitespace).reverse)

/-- Rust `str::starts_with`. -/
def rsStartsWith (s p : String) : Bool :=
  p.data.isPrefixOf s.data

/-- Rust `str::ends_with`. -/
def rsEndsWith (s p : String) : Bool :=
  p.data.reverse.isPrefixOf s.data.reverse

/-- Rust `str::is_empty`. -/
def rsIsEmpty (s : String) : Bool :=
  s.data.isEmpty

/-! ## Heading pattern matchers (src/src/common.rs, `process_heading_event`
and `process_heading_event_of_level`) -/

/-- Model of `process_heading_event` (common.rs:403-429): match the 3-event pattern
`Start(Heading level), Text s, End(Heading _)` at the front of the slice.
When the end tag carries a *different* level the source only logs an error
("Assertion failed: Data does not properly close same heading level") and
still returns the heading, so the embedding accepts any end level. -/
def processHeadingEvent : List MdEvent → Option (HeadingLevel × String)
  | e0 :: e1 :: e2 :: _ =>
    match e0 with
    | .start (.heading level) =>
      match e1 with
      | .text s =>
        match e2 with
        | .end_ (.heading _) => some (level, s)
        | _ => none
      | _ => none
    | _ => none
  | _ => none

/-- Model of `ProcessHeadingEventInternalError` (common.rs:431-435). -/
inductive ProcessHeadingEventInternalError where
  | imbalancedHeadingLevels
  deriving DecidableEq, Repr

/-- Model of `ProcessHeadingEventError` (common.rs:437-458).  The source stores
`format!("{:?}")` debug strings of the offending event/tag; the embedding
keeps the event/tag itself, which carries the same information. -/
inductive ProcessHeadingEventError where
  | requiresThreeEvents
  | invalidScheme (idx : Nat) (e : MdEvent)
  | invalidStartTag (t : MdTag)
  | invalidEndTag (t : MdTagEnd)
  | wrongLevel (expected got : HeadingLevel)
  | internal (e : ProcessHeadingEventInternalError)
  deriving DecidableEq, Repr

/-- Model of `process_heading_event_of_level` (common.rs:460-521): like
`processHeadingEvent` but for a fixed requested level; checks are performed
in source order (length, events[0], events[1], events[2]) and a mismatched
end level is the `Internal(ImbalancedHeadingLevels)` error. -/
def processHeadingEventOfLevel (level : HeadingLevel) :
    List MdEvent → Except ProcessHeadingEventError String
  | e0 :: e1 :: e2 :: _ =>
    match e0 with
    | .start tag =>
      match tag with
      | .heading hl =>
        if hl ≠ level then .error (.wrongLevel level hl)
        else
          match e1 with
          | .text s =>
            match e2 with
            | .end_ te =>
              match te with
              | .heading hl2 =>
                if hl2 ≠ level then .error (.internal .imbalancedHeadingLevels)
                else .ok s
              | _ => .error (.invalidEndTag te)
            | _ => .error (.invalidScheme 2 e2)
          | _ => .error (.invalidScheme 1 e1)
      | _ => .error (.invalidStartTag tag)
    | _ => .error (.invalidScheme 0 e0)
  | _ => .error .requiresThreeEvents

/-! ## Block identifiers and linkable extraction (src/src/common.rs,
`BlockIdentifier`, `extract_linkable_obsidian_md_items`) -/

/-- Model of `BlockIdentifier` (common.rs:523-526). -/
structure BlockIdentifier where
  text : String
  deriving DecidableEq, Repr, Inhabited

/-- Model of `BlockIdentifier::from_str` (common.rs:528-546): the string must start
with `'^'` and every remaining character must be alphanumeric or `'-'`.
The `Err(())` result is modelled as `none`. -/
def blockIdentifierFromStr (s : String) : Option BlockIdentifier :=
  match s.data with
  | '^' :: rest =>
    if rest.all (fun c => c.isAlphanum || c == '-') then some ⟨s⟩ else none
  | _ => none

/-- Model of `ObsidianLinkableData` (common.rs:548-552). -/
inductive ObsidianLinkableData where
  | heading (level : HeadingLevel) (s : String)
  | blockIdentifier (b : BlockIdentifier)
  deriving DecidableEq, Repr

/-- Model of `ObsidianLinkableItem` (common.rs:554-558). -/
structure ObsidianLinkableItem where
  item_data : ObsidianLinkableData
  event : MdEvent
  deriving DecidableEq, Repr

/-- The block-identifier arm of `extract_linkable_obsidian_md_items`
(common.rs:594-610) applied to the text of one `Text` event: find the
position of the last `'^'` via `chars().rev().position(..)`, then keep
`chars().skip(len - rev_caret_pos)` and feed it to
`BlockIdentifier::from_str`.  (Note `skip (len - rev_caret_pos)` starts one
character *after* the last `'^'`.) -/
def blockIdentifierOfText (s : String) : Option BlockIdentifier :=
  match s.data.reverse.findIdx? (fun c => c == '^') with
  | none => none
  | some rev_caret_pos =>
    let len := s.data.length
    blockIdentifierFromStr (String.mk (s.data.drop (len - rev_caret_pos)))

/-- Model of `extract_linkable_obsidian_md_items` (common.rs:579-625): a level-
agnostic heading scan over every suffix of the event list, concatenated
with the block-identifier scan over every `Text` event. -/
def extractLinkableObsidianMdItems (events : List MdEvent) :
    List ObsidianLinkableItem :=
  let headings_items := events.tails.filterMap (fun suffix =>
    match suffix with
    | e :: _ =>
      (processHeadingEvent suffix).map (fun lt =>
        { item_data := .heading lt.1 lt.2, event := e })
    | [] => none)
  let block_identifier_items := events.filterMap (fun event =>
    match event with
    | .text s =>
      (blockIdentifierOfText s).map (fun b =>
        { item_data := .blockIdentifier b, event := event })
    | _ => none)
  headings_items ++ block_identifier_items

/-! ## Wiki links (src/src/common.rs, `ObsidianLink`,
`parse_multiple_obsidian_links`, `extract_obsidian_md_links`) -/

/-- Model of `ObsidianLink` (common.rs:627-633). -/
structure ObsidianLink where
  text : String
  opt_file_link : Option String
  opt_sublink : Option String
  opt_title : Option String
  deriving DecidableEq, Repr, Inhabited

/-- Model of `ObsidianLinkParseError` (common.rs:635-643). -/
inductive ObsidianLinkParseError where
  | noBracketsFound (s : String)
  | mustHaveZeroOrOneHash (count : Nat) (s : String)
  | mustHaveZeroOrOneBar (count : Nat) (s : String)
  deriving DecidableEq, Repr

/-- Model of `ObsidianLink::from_str` (common.rs:645-721): require the `[[`/`]]`
wrapping, strip every `[[` and `]]` occurrence, reject more than one `#`
(checked first) or more than one `|`; the title is everything from the
first `|`, the sublink everything from the first `#` position (taken in
the title-stripped string, exactly as the source does), and the file link
is whatever remains after deleting title and sublink substrings. -/
def obsidianLinkFromStr (s : String) : Except ObsidianLinkParseError ObsidianLink :=
  if ¬ (rsStartsWith s "[[") ∨ ¬ (rsEndsWith s "]]") then
    .error (.noBracketsFound s)
  else
    let remaining_s := rsReplace (rsReplace s "[[" "") "]]" ""
    let count_hash := countChar remaining_s '#'
    let count_bar := countChar remaining_s '|'
    if count_hash > 1 then
      .error (.mustHaveZeroOrOneHash count_hash remaining_s)
    else if count_bar > 1 then
      .error (.mustHaveZeroOrOneBar count_bar remaining_s)
    else
      let opt_title_pos := remaining_s.data.findIdx? (fun c => c == '|')
      let opt_sublink_pos := remaining_s.data.findIdx? (fun c => c == '#')
      let opt_title := opt_title_pos.map (fun title_pos =>
        String.mk (remaining_s.data.drop title_pos))
      let opt_sublink := opt_sublink_pos.map (fun sublink_pos =>
        let remaining_s2 :=
          match opt_title with
          | some title => rsReplace remaining_s title ""
          | none => remaining_s
        String.mk (remaining_s2.data.drop sublink_pos))
      let remaining_s2 :=
        let s1 :=
          match opt_title with
          | some title => rsReplace remaining_s title ""
          | none => remaining_s
        match opt_sublink with
        | some sublink => rsReplace s1 sublink ""
        | none => s1
      let opt_file_link := if rsIsEmpty remaining_s2 then none else some remaining_s2
      .ok { text := s, opt_file_link := opt_file_link,
            opt_sublink := opt_sublink, opt_title := opt_title }

/-- The token-extraction part of `parse_multiple_obsidian_links`
(common.rs:724-736): split on `[[`, keep pieces containing `]]`, truncate
each right after its first `]]` and re-attach the `[[` prefix.  The
`expect` on `find` cannot fail because of the filter; the impossible
branch is mapped to the untruncated token. -/
def extractLinkTokens (s : String) : List String :=
  ((rsSplitOn s "[[").filter (fun t => containsSub t "]]")).map (fun t =>
    match findSubIdx t.data "]]".data with
    | some end_idx => "[[" ++ String.mk (t.data.take (end_idx + 2))
    | none => "[[" ++ t)

/-- Model of `parse_multiple_obsidian_links` (common.rs:723-744): parse every
extracted token, short-circuiting on the first parse error
(`collect::<Result<Vec<_>, _>>`). -/
def parseMultipleObsidianLinks (s : String) :
    Except ObsidianLinkParseError (List ObsidianLink) :=
  (extractLinkTokens s).mapM obsidianLinkFromStr

/-- Model of `ObsidianLinkItem` (common.rs:746-750). -/
structure ObsidianLinkItem where
  links : List ObsidianLink
  event : MdEvent
  deriving DecidableEq, Repr

/-- Model of `ExtractOBsidianMdLinksError` (common.rs:761-765). -/
inductive ExtractOBsidianMdLinksError where
  | linkExtractError (e : ObsidianLinkParseError)
  deriving DecidableEq, Repr

/-- Model of `extract_obsidian_md_links` (common.rs:767-791): for every `Text`
event parse its links (propagating the first parse error); events that
are not `Text` or yield zero links are dropped. -/
def extractObsidianMdLinks (events : List MdEvent) :
    Except ExtractOBsidianMdLinksError (List ObsidianLinkItem) := do
  let opts ← events.mapM (fun event =>
    match event with
    | .text s =>
      match parseMultipleObsidianLinks s with
      | .error e => .error (ExtractOBsidianMdLinksError.linkExtractError e)
      | .ok links =>
        if links.isEmpty then .ok none
        else .ok (some ({ links := links, event := event } : ObsidianLinkItem))
    | _ => .ok none)
  return opts.reduceOption

/-! ## Frontmatter recognition (src/src/common.rs,
`parse_markdown_file_frontmatter_section`) -/

/-- The event loop of `parse_markdown_file_frontmatter_section`
(common.rs:313-348), running over the events after the leading
`Rule, Start(Heading(H2))`: an `End(Heading(H2))` completes recognition;
a `Text` must split on `":"` into exactly two parts, which are pushed as a
property; `SoftBreak` is skipped; anything else (including an end tag of a
different heading level, and running out of events) leaves
`mut_broke_format` set and recognition yields `none`. -/
def frontmatterLoop : List MdEvent → Option (List (String × String))
  | [] => none
  | e :: rest =>
    match e with
    | .end_ (.heading level) => if level = .h2 then some [] else none
    | .text s =>
      match rsSplitOn s ":" with
      | [k, v] => (frontmatterLoop rest).map (fun props => (k, v) :: props)
      | _ => none
    | .softBreak => frontmatterLoop rest
    | _ => none

/-- Model of `parse_markdown_file_frontmatter_section` (common.rs:288-351) after the
file has been read and tokenized (file I/O and the external markdown
tokenizer are factored out; this takes the event sequence directly):
require the pattern `Rule, Start(Heading(H2)), ...` at the start and run
`frontmatterLoop` on the remainder. -/
def parseFrontmatterSectionEvents (events : List MdEvent) :
    Option (List (String × String)) :=
  match events with
  | .rule :: .start (.heading .h2) :: rest => frontmatterLoop rest
  | _ => none

/-! ## Spawn-relation inference (src/src/cluster_note.rs,
`extract_spawn_metadata_from_old_format`) -/

/-- Model of `SpawnMetadata` (cluster_note.rs:676-689). -/
inductive SpawnMetadata where
  | spawning (event : MdEvent) (note_link : ObsidianLink)
      (block_identifier : BlockIdentifier)
  | spawned (event : MdEvent) (note_link : ObsidianLink)
      (block_identifier : BlockIdentifier)
  deriving DecidableEq, Repr

/-- Model of `GetEventText` for `ObsidianLinkableItem` (common.rs:570-577): the text
of the originating event, defined only for `Text` events. -/
def linkableEventText (item : ObsidianLinkableItem) : Option String :=
  match item.event with
  | .text s => some s
  | _ => none

/-- Model of `GetEventText` for `ObsidianLinkItem` (common.rs:752-759). -/
def linkItemEventText (item : ObsidianLinkItem) : Option String :=
  match item.event with
  | .text s => some s
  | _ => none

/-- Cartesian product in the iteration order of itertools
`cartesian_product`. -/
def cartesianProduct (xs : List α) (ys : List β) : List (α × β) :=
  xs.flatMap (fun x => ys.map (fun y => (x, y)))

/-- Model of `extract_spawn_metadata_from_old_format` (cluster_note.rs:705-780):
pair linkables with links sharing the identical source event; `Spawning`
needs a `^spawn`-prefixed block identifier, trimmed event text starting
with `"Spawn "` and exactly one link; `Spawned` needs exactly two links,
event text starting with `"From "` and containing `"in"`, first link text
containing `"spawn"`, and the first link's `#`-stripped sublink parsing as
a `BlockIdentifier`.  Results are concatenated spawning-first. -/
def extractSpawnMetadataFromOldFormat (linkables : List ObsidianLinkableItem)
    (links : List ObsidianLinkItem) : List SpawnMetadata :=
  let shared_event_items :=
    (cartesianProduct linkables links).filter
      (fun p => p.1.event == p.2.event)
  let spawns :=
    ((((shared_event_items.filter (fun p =>
        match p.1.item_data with
        | .heading _ _ => false
        | .blockIdentifier b => rsStartsWith b.text "^spawn")).filter (fun p =>
        match linkableEventText p.1 with
        | some t => rsStartsWith (rsTrim t) "Spawn "
        | none => false)).filter (fun p =>
        p.2.links.length == 1)).filterMap (fun p =>
        match p.1.item_data with
        | .heading _ _ => none
        | .blockIdentifier b =>
          some (SpawnMetadata.spawning p.2.event (p.2.links.headD default) b)))
  let spawned :=
    (((links.filter (fun link =>
        link.links.length == 2 &&
          match linkItemEventText link with
          | some t => rsStartsWith t "From " && containsSub t "in"
          | none => false)).filter (fun link =>
        containsSub (link.links.headD default).text "spawn")).filterMap
        (fun link =>
        match (link.links.headD default).opt_sublink with
        | some sublink_with_hash =>
          let sublink := rsReplace sublink_with_hash "#" ""
          match blockIdentifierFromStr sublink with
          | some b =>
            some (SpawnMetadata.spawned link.event
              (link.links.getD 1 default) b)
          | none => none
        | none => none))
  spawns ++ spawned

/-! ## Context-type tables (src/src/cluster_note.rs:17-80) -/

/-- Model of `NUM_EXPECTED_FOLDERS` (cluster_note.rs:17). -/
def NUM_EXPECTED_FOLDERS : Nat := 7

/-- Model of `CONTEXT_TYPE_HEADINGS` (cluster_note.rs:43-51). -/
def CONTEXT_TYPE_HEADINGS : List String :=
  ["Entries", "HowTos", "Ideas", "Inferences", "Investigations", "Issues",
   "Tasks"]

/-- Model of `context_type_is_doer` (cluster_note.rs:62-80).  The guard admits any
`context_type_id ≤ NUM_EXPECTED_FOLDERS` (the source tests `>`), after
which `CONTEXT_TYPE_HEADINGS[context_type_id]` is indexed; an
out-of-bounds index is a Rust panic, modelled as `none`. -/
def contextTypeIsDoer (context_type_id : Nat) : Option Bool :=
  if context_type_id > NUM_EXPECTED_FOLDERS then some false
  else
    let doer_context_type_headings :=
      ["HowTos", "Investigations", "Issues", "Tasks"]
    match CONTEXT_TYPE_HEADINGS.get? context_type_id with
    | some h => some (doer_context_type_headings.any (fun heading => heading == h))
    | none => none

/-! ## Auto-numbered section stripping (src/src/cluster_note.rs:485-507) -/

/-- Rust `str::parse::<usize>` restricted to what the source needs:
succeeds on an optional leading `'+'` followed by a nonempty run of ASCII
digits whose value fits in 64 bits (a 64-bit target `usize`). -/
def rustParseUsize (s : String) : Option Nat :=
  let digits :=
    match s.data with
    | '+' :: rest => rest
    | cs => cs
  if digits.isEmpty then none
  else if digits.all (fun c => c.isDigit) then
    let v := digits.foldl (fun acc c => acc * 10 + (c.toNat - 48)) 0
    if v < 2 ^ 64 then some v else none
  else none

/-- Model of `is_autonumbered_section_segment` (cluster_note.rs:485-490): every
`"."`-separated piece of the token parses as a `usize`. -/
def isAutonumberedSectionSegment (s : String) : Bool :=
  ((rsSplitOn s ".").map (fun token => rustParseUsize token)).all
    (fun token => token.isSome)

/-- Model of `strip_autonumbered_sections` (cluster_note.rs:493-507): split on
single spaces; with at least two tokens whose first is an auto-number
segment, the result is `s.replace(first_token, "")` — which removes
*every* substring occurrence of the first token — otherwise `s`
unchanged. -/
def stripAutonumberedSections (s : String) : String :=
  let tokens := rsSplitOn s " "
  if tokens.length < 2 then s
  else
    let potential_segt := tokens.headD ""
    if ¬ (isAutonumberedSectionSegment potential_segt) then s
    else rsReplace s potential_segt ""

/-! ## Legacy-format entries (src/src/cluster_note.rs:447-674) -/

/-- Model of `OldFormatEntryType` (cluster_note.rs:447-455). -/
inductive OldFormatEntryType where
  | task | issue | howTo | investigation | idea | sideNote
  deriving DecidableEq, Repr

/-- Model of `OLD_FORMAT_HEADINGS` (cluster_note.rs:53-60). -/
def OLD_FORMAT_HEADINGS : List String :=
  ["Tasks", "Issues", "HowTos", "Investigations", "Ideas", "Side Notes"]

/-- Model of `OldFormatEntryTypeFromStrError` (cluster_note.rs:457-461). -/
inductive OldFormatEntryTypeFromStrError where
  | invalidType (s : String)
  deriving DecidableEq, Repr

/-- Model of `OldFormatEntryType::from_str` (cluster_note.rs:463-483). -/
def oldFormatEntryTypeFromStr (s : String) :
    Except OldFormatEntryTypeFromStrError OldFormatEntryType :=
  if s = "Tasks" then .ok .task
  else if s = "Issues" then .ok .issue
  else if s = "HowTos" then .ok .howTo
  else if s = "Investigations" then .ok .investigation
  else if s = "Ideas" then .ok .idea
  else if s = "Side Notes" then .ok .sideNote
  else .error (.invalidType s)

/-- Model of `OldFormatEntry` (cluster_note.rs:509-514). -/
structure OldFormatEntry where
  entry_type : OldFormatEntryType
  entry_name : String
  events : List MdEvent
  deriving DecidableEq, Repr

/-- Model of `GetNoteOldFormatEntriesError` (cluster_note.rs:516-523). -/
inductive GetNoteOldFormatEntriesError where
  | invalidEntryType (e : OldFormatEntryTypeFromStrError)
  | eventTypeAndNameNotConfigured
  deriving DecidableEq, Repr

/-- The local `Grouped` enum of `get_note_old_format_entries`
(cluster_note.rs:529-534). -/
inductive Grouped where
  | h1 (s : String)
  | h2 (s : String)
  | content (events : List MdEvent)
  deriving DecidableEq, Repr

/-- The `keep_going` test of the inner content loop
(cluster_note.rs:561-567): stop only at a `Start(Heading)` whose level is
H1 or H2. -/
def keepGoing : MdEvent → Bool
  | .start (.heading level) => !(level == .h1) && !(level == .h2)
  | _ => true

/-- Result of the grouping state machine: the groups, the reachable source
`panic!` (cluster_note.rs:588, hit when a maximal content run measures
zero length), or fuel exhaustion (proven unreachable for fuel ≥ length in
`groupLoopF_ne_outOfFuel`). -/
inductive GroupOutcome where
  | done (gs : List Grouped)
  | panicked
  | outOfFuel
  deriving DecidableEq, Repr

/-- The grouping state machine of `get_note_old_format_entries`
(cluster_note.rs:536-600), fuelled: at each position try the H1 3-event
pattern, then the H2 pattern; otherwise, once at least one group has been
emitted, take the maximal `keepGoing` run as a `Content` group (a zero
length run is the source panic); with no group emitted yet, skip one
event.  The flag argument is `!mut_grouped_events.is_empty()`. -/
def groupLoopF : Nat → List MdEvent → Bool → GroupOutcome
  | _, [], _ => .done []
  | 0, _ :: _, _ => .outOfFuel
  | Nat.succ fuel, e :: rest, nonempty =>
    match processHeadingEventOfLevel .h1 (e :: rest) with
    | .ok heading1 =>
      match groupLoopF fuel ((e :: rest).drop 3) true with
      | .done gs => .done (.h1 heading1 :: gs)
      | .panicked => .panicked
      | .outOfFuel => .outOfFuel
    | .error _ =>
      match processHeadingEventOfLevel .h2 (e :: rest) with
      | .ok heading2 =>
        match groupLoopF fuel ((e :: rest).drop 3) true with
        | .done gs => .done (.h2 heading2 :: gs)
        | .panicked => .panicked
        | .outOfFuel => .outOfFuel
      | .error _ =>
        if nonempty then
          let run := (e :: rest).takeWhile keepGoing
          if run.isEmpty then .panicked
          else
            match groupLoopF fuel ((e :: rest).drop run.length) true with
            | .done gs => .done (.content run :: gs)
            | .panicked => .panicked
            | .outOfFuel => .outOfFuel
        else groupLoopF fuel rest false

/-- The relevance filter of `get_note_old_format_entries`
(cluster_note.rs:602-630): keep an H1 group (and set the relevance flag)
iff its auto-number-stripped, trimmed text is an `OLD_FORMAT_HEADINGS`
label; keep other groups only while the flag is set. -/
def filterRelevant : List Grouped → Bool → List Grouped
  | [], _ => []
  | g :: rest, h1_is_relevant =>
    match g with
    | .h1 heading1 =>
      if OLD_FORMAT_HEADINGS.contains (rsTrim (stripAutonumberedSections heading1))
      then g :: filterRelevant rest true
      else filterRelevant rest false
    | _ =>
      if h1_is_relevant then g :: filterRelevant rest h1_is_relevant
      else filterRelevant rest h1_is_relevant

/-- The assembly pass of `get_note_old_format_entries`
(cluster_note.rs:632-671): H1 sets the current type via
`OldFormatEntryType::from_str` (propagating its error), H2 sets the
current name, and each `Content` group pairs the two into an entry,
failing with `EventTypeAndNameNotConfigured` if either is unset. -/
def assembleEntries : List Grouped → Option OldFormatEntryType →
    Option String → Except GetNoteOldFormatEntriesError (List OldFormatEntry)
  | [], _, _ => .ok []
  | g :: rest, opt_last_entry_type, opt_last_entry_name =>
    match g with
    | .h1 heading1 =>
      match oldFormatEntryTypeFromStr (rsTrim (stripAutonumberedSections heading1)) with
      | .ok entry_type => assembleEntries rest (some entry_type) opt_last_entry_name
      | .error e => .error (.invalidEntryType e)
    | .h2 heading2 => assembleEntries rest opt_last_entry_type (some heading2)
    | .content events =>
      match opt_last_entry_type, opt_last_entry_name with
      | some entry_type, some entry_name =>
        (assembleEntries rest opt_last_entry_type opt_last_entry_name).map
          (fun entries =>
            { entry_type := entry_type, entry_name := entry_name,
              events := events } :: entries)
      | _, _ => .error .eventTypeAndNameNotConfigured

/-- Overall outcome of `get_note_old_format_entries`: success, its declared
error type, or a Rust panic. -/
inductive ExtractOutcome where
  | ok (entries : List OldFormatEntry)
  | err (e : GetNoteOldFormatEntriesError)
  | panicked
  deriving DecidableEq, Repr

/-- Model of `get_note_old_format_entries` (cluster_note.rs:525-674):
group, filter for old-format relevance, assemble.  Fuel `events.length`
suffices because every grouping step consumes at least one event
(`groupLoopF_ne_outOfFuel`); the `outOfFuel` case is mapped to `panicked`
but is unreachable. -/
def getNoteOldFormatEntries (events : List MdEvent) : ExtractOutcome :=
  match groupLoopF events.length events false with
  | .outOfFuel => .panicked
  | .panicked => .panicked
  | .done gs =>
    match assembleEntries (filterRelevant gs false) none none with
    | .ok entries => .ok entries
    | .error e => .err e

/-- Spec-side predicate: events other than `Text`, `SoftBreak` and a
heading end abort frontmatter recognition (used to state the amended C4
claim; it is deliberately written as a direct case list, independent of
`frontmatterLoop`). -/
def abortsFrontmatterRecognition : MdEvent → Bool
  | .text _ => false
  | .softBreak => false
  | .end_ (.heading _) => false
  | _ => true

/-- Spec-side predicate: is this group a name-establishing `Heading2`?
Used to state the amended C5 claim. -/
def isH2Group : Grouped → Bool
  | .h2 _ => true
  | _ => false

/-- Spec-side predicate: is this group an H1 whose stripped, trimmed text
is an old-format label — i.e. an H1 the relevance filter keeps?  This is
the exact condition tested by `filterRelevant` (cluster_note.rs:610),
named so the amended C5 claim can quantify over it. -/
def isRelevantH1Group : Grouped → Bool
  | .h1 heading1 =>
    OLD_FORMAT_HEADINGS.contains (rsTrim (stripAutonumberedSections heading1))
  | _ => false

/-! ## General lemmas about the embedding -/

/-- A string whose first character is not a caret never parses as a
`BlockIdentifier`. -/
theorem blockIdentifierFromStr_of_head_ne (l : List Char)
    (h : l.head? ≠ some '^') : blockIdentifierFromStr (String.mk l) = none := by
  unfold blockIdentifierFromStr
  split
  · next rest heq =>
    exfalso
    apply h
    rw [show (String.mk l).data = l from rfl] at heq
    rw [heq]
    rfl
  · rfl

/-- Dead scan: the block-identifier arm of the linkable extractor never
produces anything.  The suffix it feeds to `BlockIdentifier::from_str`
starts one character *after* the last caret (the source skips
`len - rev_caret_pos` characters instead of `len - rev_caret_pos - 1`),
so the parsed string never begins with the required caret. -/
theorem blockIdentifierOfText_eq_none (s : String) :
    blockIdentifierOfText s = none := by
  have hdef : blockIdentifierOfText s =
      match s.data.reverse.findIdx? (fun c => c == '^') with
      | none => none
      | some rev_caret_pos =>
        blockIdentifierFromStr
          (String.mk (s.data.drop (s.data.length - rev_caret_pos))) := rfl
  rw [hdef]
  cases hfind : s.data.reverse.findIdx? (fun c => c == '^') with
  | none => rfl
  | some k =>
    simp only
    apply blockIdentifierFromStr_of_head_ne
    rw [List.findIdx?_eq_some_iff_getElem] at hfind
    obtain ⟨hk, _, hmin⟩ := hfind
    rw [List.length_reverse] at hk
    rcases Nat.eq_zero_or_pos k with hk0 | hkpos
    · subst hk0
      rw [Nat.sub_zero, List.drop_length]
      simp
    · have hlt : s.data.length - k < s.data.length := by omega
      rw [List.drop_eq_getElem_cons hlt, List.head?_cons]
      have hlt2 : k - 1 < s.data.reverse.length := by
        rw [List.length_reverse]; omega
      have hj := hmin (k - 1) (by omega)
      simp only [Bool.not_eq_true] at hj
      intro hcontra
      have hc : s.data[s.data.length - k] = '^' := by
        injection hcontra
      have h1 : s.data.reverse[k - 1]? = some (s.data.reverse[k - 1]) :=
        List.getElem?_eq_getElem hlt2
      have h2 : s.data.reverse[k - 1]? =
          s.data[s.data.length - 1 - (k - 1)]? :=
        List.getElem?_reverse (by omega)
      have h3 : s.data.length - 1 - (k - 1) = s.data.length - k := by omega
      rw [h3] at h2
      have h4 : s.data[s.data.length - k]? =
          some (s.data[s.data.length - k]) := List.getElem?_eq_getElem hlt
      have h5 : s.data.reverse[k - 1] = s.data[s.data.length - k] :=
        Option.some.inj (h1.symm.trans (h2.trans h4))
      rw [h5, hc] at hj
      simp at hj

/-- At an event that does not start an H1/H2 heading, both fixed-level
heading matchers fail. -/
theorem processHeadingEventOfLevel_error_of_keepGoing
    {lvl : HeadingLevel} (hlvl : lvl = .h1 ∨ lvl = .h2)
    {e : MdEvent} (he : keepGoing e = true) (rest : List MdEvent) :
    ∃ er, processHeadingEventOfLevel lvl (e :: rest) = .error er := by
  match rest with
  | [] => exact ⟨.requiresThreeEvents, rfl⟩
  | [_] => exact ⟨.requiresThreeEvents, rfl⟩
  | e1 :: e2 :: rest' =>
    match e with
    | .start (.heading l) =>
      simp only [keepGoing, Bool.and_eq_true, Bool.not_eq_true',
        beq_eq_false_iff_ne, ne_eq] at he
      refine ⟨.wrongLevel lvl l, ?_⟩
      show (if l ≠ lvl then (Except.error (.wrongLevel lvl l) :
          Except ProcessHeadingEventError String) else _) = _
      rw [if_pos]
      rcases hlvl with h | h <;> subst h
      · exact fun hc => he.1 hc
      · exact fun hc => he.2 hc
    | .start (.otherTag n) => exact ⟨.invalidStartTag (.otherTag n), rfl⟩
    | .end_ t => exact ⟨.invalidScheme 0 (.end_ t), rfl⟩
    | .text s => exact ⟨.invalidScheme 0 (.text s), rfl⟩
    | .code s => exact ⟨.invalidScheme 0 (.code s), rfl⟩
    | .softBreak => exact ⟨.invalidScheme 0 .softBreak, rfl⟩
    | .hardBreak => exact ⟨.invalidScheme 0 .hardBreak, rfl⟩
    | .rule => exact ⟨.invalidScheme 0 .rule, rfl⟩
    | .other n => exact ⟨.invalidScheme 0 (.other n), rfl⟩

/-- Skipping pass: with no group emitted yet and no H1/H2 heading start
anywhere, the grouping loop skips every event and yields no groups. -/
theorem groupLoopF_skip_all : ∀ (fuel : Nat) (es : List MdEvent),
    es.length ≤ fuel → (∀ e ∈ es, keepGoing e = true) →
    groupLoopF fuel es false = .done [] := by
  intro fuel
  induction fuel with
  | zero =>
    intro es hlen _
    have : es = [] := List.eq_nil_of_length_eq_zero (Nat.le_zero.mp hlen)
    subst this
    rfl
  | succ fuel ih =>
    intro es hlen hkeep
    match es with
    | [] => rfl
    | e :: rest =>
      obtain ⟨er1, h1⟩ := processHeadingEventOfLevel_error_of_keepGoing
        (Or.inl rfl) (hkeep e (by simp)) rest
      obtain ⟨er2, h2⟩ := processHeadingEventOfLevel_error_of_keepGoing
        (Or.inr rfl) (hkeep e (by simp)) rest
      unfold groupLoopF
      rw [h1, h2]
      simp only [Bool.false_eq_true, if_false]
      exact ih rest (by simpa using Nat.le_of_succ_le_succ hlen)
        (fun x hx => hkeep x (by simp [hx]))

/-- Content pass: once a group has been emitted, a nonempty run of events
none of which starts an H1/H2 heading is consumed as one `Content`
group. -/
theorem groupLoopF_content_all (fuel : Nat) (hfuel : 1 ≤ fuel)
    (es : List MdEvent) (hne : es ≠ [])
    (hkeep : ∀ e ∈ es, keepGoing e = true) :
    groupLoopF fuel es true = .done [.content es] := by
  match fuel, hfuel with
  | Nat.succ fuel, _ =>
    match es, hne with
    | e :: rest, _ =>
      obtain ⟨er1, h1⟩ := processHeadingEventOfLevel_error_of_keepGoing
        (Or.inl rfl) (hkeep e (by simp)) rest
      obtain ⟨er2, h2⟩ := processHeadingEventOfLevel_error_of_keepGoing
        (Or.inr rfl) (hkeep e (by simp)) rest
      unfold groupLoopF
      rw [h1, h2]
      simp only [if_true]
      have hrun : (e :: rest).takeWhile keepGoing = e :: rest :=
        List.takeWhile_eq_self_iff.mpr hkeep
      rw [hrun]
      have hnil : groupLoopF fuel [] true = .done [] := by cases fuel <;> rfl
      simp only [List.isEmpty_cons, List.drop_length, Bool.false_eq_true,
        if_false, hnil]

/-- Fuel `es.length` always suffices for the grouping loop: every step
consumes at least one event, so the `outOfFuel` case of
`getNoteOldFormatEntries` is unreachable. -/
theorem groupLoopF_ne_outOfFuel : ∀ (fuel : Nat) (es : List MdEvent) (b : Bool),
    es.length ≤ fuel → groupLoopF fuel es b ≠ .outOfFuel := by
  intro fuel
  induction fuel with
  | zero =>
    intro es b hlen
    have : es = [] := List.eq_nil_of_length_eq_zero (Nat.le_zero.mp hlen)
    subst this
    simp [groupLoopF]
  | succ fuel ih =>
    intro es b hlen
    match es with
    | [] => simp [groupLoopF]
    | e :: rest =>
      have hlen' : rest.length ≤ fuel := by
        simpa using Nat.le_of_succ_le_succ hlen
      unfold groupLoopF
      cases hh1 : processHeadingEventOfLevel .h1 (e :: rest) with
      | ok t =>
        have hd := ih ((e :: rest).drop 3) true (by simp; omega)
        cases hrec : groupLoopF fuel ((e :: rest).drop 3) true <;> simp_all
      | error er1 =>
        cases hh2 : processHeadingEventOfLevel .h2 (e :: rest) with
        | ok t =>
          have hd := ih ((e :: rest).drop 3) true (by simp; omega)
          cases hrec : groupLoopF fuel ((e :: rest).drop 3) true <;> simp_all
        | error er2 =>
          cases b with
          | false =>
            simp only [Bool.false_eq_true, if_false]
            exact ih rest false hlen'
          | true =>
            simp only [if_true]
            cases hrunE : ((e :: rest).takeWhile keepGoing).isEmpty with
            | true => simp
            | false =>
              have hrpos : 1 ≤ ((e :: rest).takeWhile keepGoing).length := by
                cases hr : (e :: rest).takeWhile keepGoing with
                | nil => rw [hr] at hrunE; simp at hrunE
                | cons a t => simp
              have hd := ih
                ((e :: rest).drop ((e :: rest).takeWhile keepGoing).length)
                true (by simp; omega)
              simp only [Bool.false_eq_true, if_false]
              cases hrec : groupLoopF fuel
                ((e :: rest).drop ((e :: rest).takeWhile keepGoing).length)
                true <;> simp_all

/-- Every `OLD_FORMAT_HEADINGS` label converts successfully via
`OldFormatEntryType::from_str`. -/
theorem oldFormatEntryTypeFromStr_ok_of_mem {s : String}
    (h : s ∈ OLD_FORMAT_HEADINGS) :
    ∃ ty, oldFormatEntryTypeFromStr s = .ok ty := by
  simp only [OLD_FORMAT_HEADINGS, List.mem_cons, List.not_mem_nil,
    or_false] at h
  rcases h with h | h | h | h | h | h <;> subst h <;> exact ⟨_, rfl⟩

/-- Under a relevant (old-format) H1 heading, a content group reached
before any H2 makes the whole extraction fail with the
type/name-not-established error. -/
theorem legacy_entries_err_of_relevant_h1_content (t : String)
    (body : List MdEvent)
    (hrel : OLD_FORMAT_HEADINGS.contains
      (rsTrim (stripAutonumberedSections t)) = true)
    (hne : body ≠ [])
    (hkeep : ∀ e ∈ body, keepGoing e = true) :
    getNoteOldFormatEntries
      (.start (.heading .h1) :: .text t :: .end_ (.heading .h1) :: body) =
      .err .eventTypeAndNameNotConfigured := by
  have hmem : rsTrim (stripAutonumberedSections t) ∈ OLD_FORMAT_HEADINGS := by
    simpa using hrel
  obtain ⟨ty, hty⟩ := oldFormatEntryTypeFromStr_ok_of_mem hmem
  have hH1 : processHeadingEventOfLevel .h1
      (MdEvent.start (.heading .h1) :: .text t :: .end_ (.heading .h1) ::
        body) = .ok t := rfl
  have hlen : (MdEvent.start (.heading .h1) :: MdEvent.text t ::
      MdEvent.end_ (.heading .h1) :: body).length = body.length + 3 := by simp
  have hgroup : groupLoopF (body.length + 3)
      (MdEvent.start (.heading .h1) :: .text t :: .end_ (.heading .h1) ::
        body) false = .done [.h1 t, .content body] := by
    have h3 : body.length + 3 = Nat.succ (body.length + 2) := rfl
    rw [h3]
    unfold groupLoopF
    rw [hH1]
    have hdrop : (MdEvent.start (.heading .h1) :: MdEvent.text t ::
        MdEvent.end_ (.heading .h1) :: body).drop 3 = body := rfl
    rw [hdrop]
    rw [groupLoopF_content_all (body.length + 2) (by omega) body hne hkeep]
  have hfilter : filterRelevant [Grouped.h1 t, Grouped.content body] false
      = [Grouped.h1 t, Grouped.content body] := by
    simp [filterRelevant, hrel, hmem]
  have hassemble : assembleEntries [Grouped.h1 t, Grouped.content body]
      none none = .error .eventTypeAndNameNotConfigured := by
    simp [assembleEntries, hty]
  unfold getNoteOldFormatEntries
  rw [hlen, hgroup]
  simp only [hfilter, hassemble]

/-- With no H1/H2 heading start anywhere in the event sequence, legacy
extraction succeeds with the empty entry list (content is skipped, not
reported as an error). -/
theorem legacy_entries_ok_nil_of_no_headings (es : List MdEvent)
    (hkeep : ∀ e ∈ es, keepGoing e = true) :
    getNoteOldFormatEntries es = .ok [] := by
  unfold getNoteOldFormatEntries
  rw [groupLoopF_skip_all es.length es (Nat.le_refl _) hkeep]
  rfl

/-- With at most one `#` but more than one `|` in the bracket-stripped
remainder, link parsing fails with the bar-arity error. -/
theorem obsidianLinkFromStr_bar_error (s : String)
    (hA : rsStartsWith s "[[" = true) (hB : rsEndsWith s "]]" = true)
    (hhash : countChar (rsReplace (rsReplace s "[[" "") "]]" "") '#' ≤ 1)
    (hbar : 1 < countChar (rsReplace (rsReplace s "[[" "") "]]" "") '|') :
    obsidianLinkFromStr s = .error (.mustHaveZeroOrOneBar
      (countChar (rsReplace (rsReplace s "[[" "") "]]" "") '|')
      (rsReplace (rsReplace s "[[" "") "]]" "")) := by
  unfold obsidianLinkFromStr
  rw [if_neg (by simp [hA, hB])]
  simp only
  rw [if_neg (by omega), if_pos hbar]

/-- With more than one `#` in the bracket-stripped remainder, link parsing
fails with the hash-arity error (checked before the bar count). -/
theorem obsidianLinkFromStr_hash_error (s : String)
    (hA : rsStartsWith s "[[" = true) (hB : rsEndsWith s "]]" = true)
    (hhash : 1 < countChar (rsReplace (rsReplace s "[[" "") "]]" "") '#') :
    obsidianLinkFromStr s = .error (.mustHaveZeroOrOneHash
      (countChar (rsReplace (rsReplace s "[[" "") "]]" "") '#')
      (rsReplace (rsReplace s "[[" "") "]]" "")) := by
  unfold obsidianLinkFromStr
  rw [if_neg (by simp [hA, hB])]
  simp only
  rw [if_pos hhash]

/-- Semantics of `collect::<Result<..>>`: a successful `mapM` means every
element mapped successfully, so one failing element prevents any `ok`
result. -/
theorem mapM_ok_of_mem {ε α β : Type} (f : α → Except ε β) :
    ∀ (l : List α) (r : List β), l.mapM f = .ok r →
      ∀ x ∈ l, ∃ y, f x = .ok y := by
  intro l
  induction l with
  | nil => intro r _ x hx; exact absurd hx (List.not_mem_nil x)
  | cons a t ih =>
    intro r h x hx
    rw [List.mapM_cons] at h
    cases hfa : f a with
    | error e =>
      rw [hfa] at h
      exact absurd h (by intro hc; exact Except.noConfusion hc)
    | ok y =>
      rw [hfa] at h
      have h' : (t.mapM f >>= fun ys => pure (y :: ys)) = Except.ok r := h
      cases hmt : t.mapM f with
      | error e =>
        rw [hmt] at h'
        exact absurd h' (by intro hc; exact Except.noConfusion hc)
      | ok ys =>
        rcases List.mem_cons.mp hx with hxa | hxt
        · subst hxa; exact ⟨y, hfa⟩
        · exact ih ys hmt x hxt

/-- Boolean auto-number check versus its membership formulation. -/
theorem isAutonumbered_iff (x : String) :
    isAutonumberedSectionSegment x = true ↔
      ∀ seg ∈ rsSplitOn x ".", (rustParseUsize seg).isSome = true := by
  simp [isAutonumberedSectionSegment, List.all_eq_true, List.mem_map]

/-- Filter invariant: every H1 group surviving the relevance filter
carries an old-format label (that is the only way an H1 is kept). -/
theorem filterRelevant_h1_relevant : ∀ (gs : List Grouped) (b : Bool)
    (t : String), Grouped.h1 t ∈ filterRelevant gs b →
    OLD_FORMAT_HEADINGS.contains (rsTrim (stripAutonumberedSections t)) = true := by
  intro gs
  induction gs with
  | nil => intro b t h; simp [filterRelevant] at h
  | cons g rest ih =>
    intro b t h
    cases g with
    | h1 heading1 =>
      simp only [filterRelevant] at h
      split at h
      · next hc =>
        rcases List.mem_cons.mp h with heq | hmem
        · cases heq; exact hc
        · exact ih true t hmem
      · next hc => exact ih false t h
    | h2 heading2 =>
      simp only [filterRelevant] at h
      split at h
      · rcases List.mem_cons.mp h with heq | hmem
        · exact absurd heq (by simp)
        · exact ih b t hmem
      · exact ih b t h
    | content events =>
      simp only [filterRelevant] at h
      split at h
      · rcases List.mem_cons.mp h with heq | hmem
        · exact absurd heq (by simp)
        · exact ih b t hmem
      · exact ih b t h

/-- Assembly pass: a `Content` group reached while the name is still
unset — no `Heading2` anywhere before it — fails the whole assembly with
the not-configured error, for any current type, provided the preceding
H1 labels all convert (as they do after the relevance filter).  Earlier
`Content` groups in the prefix only fail sooner, with the same error. -/
theorem assembleEntries_err_of_early_content :
    ∀ (pre : List Grouped) (optTy : Option OldFormatEntryType)
      (c : List MdEvent) (suf : List Grouped),
      pre.all (fun g => !(isH2Group g)) = true →
      (∀ t, Grouped.h1 t ∈ pre →
        ∃ ty, oldFormatEntryTypeFromStr
          (rsTrim (stripAutonumberedSections t)) = .ok ty) →
      assembleEntries (pre ++ Grouped.content c :: suf) optTy none =
        .error .eventTypeAndNameNotConfigured := by
  intro pre
  induction pre with
  | nil =>
    intro optTy c suf _ _
    cases optTy <;> rfl
  | cons g rest ih =>
    intro optTy c suf hall hh1
    simp only [List.all_cons, Bool.and_eq_true] at hall
    cases g with
    | h1 t =>
      obtain ⟨ty, hty⟩ := hh1 t (List.mem_cons_self _ _)
      simp only [List.cons_append, assembleEntries]
      rw [hty]
      exact ih (some ty) c suf hall.2
        (fun u hu => hh1 u (List.mem_cons_of_mem _ hu))
    | h2 t => simp [isH2Group] at hall
    | content events =>
      simp only [List.cons_append, assembleEntries]

/-- Relevance filter: a prefix containing no relevant H1 is dropped
entirely (its H2 and `Content` groups are skipped while the flag is
down, and its H1 groups fail the label test and keep the flag down). -/
theorem filterRelevant_append_of_no_relevant_h1 :
    ∀ (pre gs : List Grouped),
      pre.all (fun g => !(isRelevantH1Group g)) = true →
      filterRelevant (pre ++ gs) false = filterRelevant gs false := by
  intro pre
  induction pre with
  | nil => intro gs _; rfl
  | cons g rest ih =>
    intro gs hall
    simp only [List.all_cons, Bool.and_eq_true, Bool.not_eq_true'] at hall
    obtain ⟨hg, hrest⟩ := hall
    cases g with
    | h1 t =>
      simp only [isRelevantH1Group] at hg
      simp only [List.cons_append, filterRelevant]
      rw [hg]
      simp only [Bool.false_eq_true, if_false]
      exact ih gs (by simpa [Bool.not_eq_true'] using hrest)
    | h2 t =>
      simp only [List.cons_append, filterRelevant, Bool.false_eq_true,
        if_false]
      exact ih gs (by simpa [Bool.not_eq_true'] using hrest)
    | content events =>
      simp only [List.cons_append, filterRelevant, Bool.false_eq_true,
        if_false]
      exact ih gs (by simpa [Bool.not_eq_true'] using hrest)

/-! ## Claim theorems -/

/-- C1 (code bug): the claim says the linkable extractor emits a
`BlockIdentifier` for a `Text` event exactly when the suffix starting at
the last caret, caret included, parses as a block identifier.  In the
code, the computed suffix starts one character after the caret, so the
parse always fails and the block-identifier scan never emits anything:
here, `"^abc"` itself parses fine, yet the extractor returns nothing for
the text `"x ^abc"` — and in fact returns nothing for every string. -/
theorem c1_block_identifier_scan_is_dead :
    (∀ s : String, blockIdentifierOfText s = none)
    ∧ blockIdentifierFromStr "^abc" = some ⟨"^abc"⟩
    ∧ extractLinkableObsidianMdItems [MdEvent.text "x ^abc"] = [] :=
  ⟨blockIdentifierOfText_eq_none, by decide, by decide⟩

/-- C2 (code bug): for the single text event
`"Spawn [[TargetNote]] ^spawn-entry-abc123"`, link extraction succeeds
with the one wiki-link, but linkable extraction yields no block
identifier (the C1 off-by-one), so the spawn inferencer emits zero
relations instead of the claimed single `Spawning`. -/
theorem c2_spawn_relation_never_emitted :
    extractObsidianMdLinks
        [MdEvent.text "Spawn [[TargetNote]] ^spawn-entry-abc123"]
      = .ok [{ links := [{ text := "[[TargetNote]]",
                           opt_file_link := some "TargetNote",
                           opt_sublink := none, opt_title := none }],
               event := .text "Spawn [[TargetNote]] ^spawn-entry-abc123" }]
    ∧ extractSpawnMetadataFromOldFormat
        (extractLinkableObsidianMdItems
          [MdEvent.text "Spawn [[TargetNote]] ^spawn-entry-abc123"])
        [{ links := [{ text := "[[TargetNote]]",
                       opt_file_link := some "TargetNote",
                       opt_sublink := none, opt_title := none }],
           event := .text "Spawn [[TargetNote]] ^spawn-entry-abc123" }]
      = [] :=
  ⟨by decide, by decide⟩

/-- C3 (counterexample): the claim says stripping removes only the first
whitespace-delimited token, leaving the rest intact and occurrences of
that token elsewhere untouched.  The code uses `replace`, which removes
every substring occurrence: here the second `"2.1.3"` is deleted too
(and a leading space is left behind). -/
theorem c3_counterexample_every_occurrence_removed :
    stripAutonumberedSections "2.1.3 Some 2.1.3 Title" = " Some  Title" := by
  decide

/-- C3 (amended): when the heading splits on single spaces into at least
two tokens and every dot-separated segment of the first token parses as a
`usize`, the result is the heading with *every* substring occurrence of
the first token removed (so `"2.1.3 Some Title"` becomes
`" Some Title"`, with a leading space); otherwise the heading is
returned unchanged. -/
theorem c3_amended_strip_removes_all_occurrences (s : String) :
    stripAutonumberedSections s =
      if 2 ≤ (rsSplitOn s " ").length ∧
          (∀ seg ∈ rsSplitOn ((rsSplitOn s " ").headD "") ".",
            (rustParseUsize seg).isSome = true)
      then rsReplace s ((rsSplitOn s " ").headD "") ""
      else s := by
  unfold stripAutonumberedSections
  by_cases hlen : (rsSplitOn s " ").length < 2
  · rw [if_pos hlen, if_neg (by omega)]
  · rw [if_neg hlen]
    by_cases hauto :
        isAutonumberedSectionSegment ((rsSplitOn s " ").headD "") = true
    · rw [if_neg (not_not_intro hauto),
        if_pos ⟨by omega, (isAutonumbered_iff _).mp hauto⟩]
    · rw [if_pos hauto,
        if_neg (fun hc => hauto ((isAutonumbered_iff _).mpr hc.2))]

/-- C4 (counterexample): the claim says a `Text` with two colons is
accepted as a property whose value keeps the second colon.  The code
splits on every colon and requires exactly two parts, so `"a:b:c"`
aborts recognition (no frontmatter) instead of yielding
`("a", "b:c")`. -/
theorem c4_counterexample_second_colon_aborts :
    parseFrontmatterSectionEvents
      [MdEvent.rule, MdEvent.start (.heading .h2), MdEvent.text "a:b:c",
       MdEvent.end_ (.heading .h2)] = none := by
  decide

/-- C4 (amended): after the leading `Rule, Start(H2)`, each `Text` event
is split on every `":"`; it is accepted as a property exactly when the
split has two parts (one colon: key before, value after), while a `Text`
whose split does not have exactly two parts, an end tag of a different
heading level, or any event other than `Text`/`SoftBreak`/heading end,
aborts recognition with the no-frontmatter absence result rather than an
error; `SoftBreak` is skipped. -/
theorem c4_amended_frontmatter_exactly_one_colon :
    (∀ rest : List MdEvent,
      parseFrontmatterSectionEvents (.rule :: .start (.heading .h2) :: rest)
        = frontmatterLoop rest)
    ∧ (∀ (s k v : String) (rest : List MdEvent),
        rsSplitOn s ":" = [k, v] →
        frontmatterLoop (.text s :: rest)
          = (frontmatterLoop rest).map (fun props => (k, v) :: props))
    ∧ (∀ (s : String) (rest : List MdEvent),
        (rsSplitOn s ":").length ≠ 2 →
        frontmatterLoop (.text s :: rest) = none)
    ∧ (∀ rest : List MdEvent,
        frontmatterLoop (.softBreak :: rest) = frontmatterLoop rest)
    ∧ (∀ (level : HeadingLevel) (rest : List MdEvent), level ≠ .h2 →
        frontmatterLoop (.end_ (.heading level) :: rest) = none)
    ∧ (∀ (e : MdEvent) (rest : List MdEvent),
        abortsFrontmatterRecognition e = true →
        frontmatterLoop (e :: rest) = none) := by
  refine ⟨fun rest => rfl, ?_, ?_, fun rest => rfl, ?_, ?_⟩
  · intro s k v rest h
    simp only [frontmatterLoop]
    rw [h]
  · intro s rest hlen
    simp only [frontmatterLoop]
    cases hsplit : rsSplitOn s ":" with
    | nil => rfl
    | cons a l2 =>
      cases l2 with
      | nil => rfl
      | cons b l3 =>
        cases l3 with
        | nil => exact absurd (by rw [hsplit]; rfl) hlen
        | cons c l4 => rfl
  · intro level rest h
    simp only [frontmatterLoop]
    rw [if_neg h]
  · intro e rest h
    cases e with
    | text s => simp [abortsFrontmatterRecognition] at h
    | softBreak => simp [abortsFrontmatterRecognition] at h
    | end_ tag =>
      cases tag with
      | heading l => simp [abortsFrontmatterRecognition] at h
      | otherTagEnd n => rfl
    | start tag => rfl
    | code s => rfl
    | hardBreak => rfl
    | rule => rfl
    | other n => rfl

/-- Witness for the amended C4 theorem at a concrete frontmatter block:
one property `k: v`, recognised as `("k", "v")`. -/
theorem c4_amended_frontmatter_exactly_one_colon_witness :
    parseFrontmatterSectionEvents
      [MdEvent.rule, MdEvent.start (.heading .h2), MdEvent.text "k:v",
       MdEvent.end_ (.heading .h2)] = some [("k", "v")] := by
  have h1 := c4_amended_frontmatter_exactly_one_colon.1
    [MdEvent.text "k:v", MdEvent.end_ (.heading .h2)]
  have h2 := c4_amended_frontmatter_exactly_one_colon.2.1
    "k:v" "k" "v" [MdEvent.end_ (.heading .h2)] (by decide)
  rw [h1, h2]
  decide

/-- C5 (counterexample): the claim says a `Content` group with no
preceding type-establishing `Heading1` makes extraction fail with the
not-configured error.  In the code, groups outside a relevant old-format
H1 section are dropped by the relevance filter, so this document (an H2
plus content, no H1 at all) extracts successfully as the empty list. -/
theorem c5_counterexample_unfiltered_content_succeeds :
    getNoteOldFormatEntries
      [MdEvent.start (.heading .h2), MdEvent.text "Name",
       MdEvent.end_ (.heading .h2), MdEvent.text "body"] = .ok [] := by
  decide

/-- C5 (amended): for any input whatsoever (any document shape, any
preamble, whatever follows): whenever the grouping succeeds and the
relevance-filtered group list reaches a `Content` group before any
name-establishing `Heading2`, the whole extraction fails with
`EventTypeAndNameNotConfigured` — never a partial list (the type side is
always established there, since only old-format H1 labels survive the
filter); and whenever the grouped list splits into a prefix with no
relevant H1 (whose groups, `Content` included, the filter drops) followed
by a remainder whose filtered groups assemble to some entries, extraction
returns exactly `.ok` of those remaining entries — a `Content` group with
no preceding relevant H1 never triggers the error. -/
theorem c5_amended_surviving_content_without_name_fails :
    (∀ (events : List MdEvent) (gs pre suf : List Grouped)
      (c : List MdEvent),
      groupLoopF events.length events false = .done gs →
      filterRelevant gs false = pre ++ Grouped.content c :: suf →
      pre.all (fun g => !(isH2Group g)) = true →
      getNoteOldFormatEntries events = .err .eventTypeAndNameNotConfigured)
    ∧ (∀ (events : List MdEvent) (pre gs : List Grouped)
      (entries : List OldFormatEntry),
      groupLoopF events.length events false = .done (pre ++ gs) →
      pre.all (fun g => !(isRelevantH1Group g)) = true →
      assembleEntries (filterRelevant gs false) none none = .ok entries →
      getNoteOldFormatEntries events = .ok entries) := by
  constructor
  · intro events gs pre suf c hgroup hfilter hpre
    have hh1ok : ∀ t, Grouped.h1 t ∈ pre →
        ∃ ty, oldFormatEntryTypeFromStr
          (rsTrim (stripAutonumberedSections t)) = .ok ty := by
      intro t ht
      have hmemf : Grouped.h1 t ∈ filterRelevant gs false := by
        rw [hfilter]
        exact List.mem_append_left _ ht
      exact oldFormatEntryTypeFromStr_ok_of_mem
        (by simpa using filterRelevant_h1_relevant gs false t hmemf)
    unfold getNoteOldFormatEntries
    rw [hgroup]
    show (match assembleEntries (filterRelevant gs false) none none with
        | .ok entries => ExtractOutcome.ok entries
        | .error e => ExtractOutcome.err e) = _
    rw [hfilter,
      assembleEntries_err_of_early_content pre none c suf hpre hh1ok]
  · intro events pre gs entries hgroup hpre hassemble
    unfold getNoteOldFormatEntries
    rw [hgroup]
    show (match assembleEntries (filterRelevant (pre ++ gs) false)
          none none with
        | .ok entries => ExtractOutcome.ok entries
        | .error e => ExtractOutcome.err e) = _
    rw [filterRelevant_append_of_no_relevant_h1 pre gs hpre, hassemble]

/-- Witness for the amended C5 theorem.  First conjunct: a document with
a leading non-heading preamble and an H2 coming only *after* the content
(`intro, # Tasks, x, ## Name`) — its filtered groups reach the content
with the name unset, so extraction fails with the not-configured error.
Second conjunct: a document opening with an irrelevant H1 section
(`# Notes` plus content) before `# Tasks / ## Name / body` — the
irrelevant prefix, its content included, is dropped and extraction
returns exactly the one remaining entry. -/
theorem c5_amended_surviving_content_without_name_fails_witness :
    getNoteOldFormatEntries
      [MdEvent.text "intro", MdEvent.start (.heading .h1),
       MdEvent.text "Tasks", MdEvent.end_ (.heading .h1), MdEvent.text "x",
       MdEvent.start (.heading .h2), MdEvent.text "Name",
       MdEvent.end_ (.heading .h2)]
      = .err .eventTypeAndNameNotConfigured
    ∧ getNoteOldFormatEntries
      [MdEvent.start (.heading .h1), MdEvent.text "Notes",
       MdEvent.end_ (.heading .h1), MdEvent.text "junk",
       MdEvent.start (.heading .h1), MdEvent.text "Tasks",
       MdEvent.end_ (.heading .h1), MdEvent.start (.heading .h2),
       MdEvent.text "Name", MdEvent.end_ (.heading .h2),
       MdEvent.text "body"]
      = .ok [{ entry_type := .task, entry_name := "Name",
               events := [MdEvent.text "body"] }] :=
  ⟨c5_amended_surviving_content_without_name_fails.1
      [MdEvent.text "intro", MdEvent.start (.heading .h1),
       MdEvent.text "Tasks", MdEvent.end_ (.heading .h1), MdEvent.text "x",
       MdEvent.start (.heading .h2), MdEvent.text "Name",
       MdEvent.end_ (.heading .h2)]
      [Grouped.h1 "Tasks", Grouped.content [MdEvent.text "x"],
       Grouped.h2 "Name"]
      [Grouped.h1 "Tasks"] [Grouped.h2 "Name"] [MdEvent.text "x"]
      (by decide) (by decide) (by decide),
   c5_amended_surviving_content_without_name_fails.2
      [MdEvent.start (.heading .h1), MdEvent.text "Notes",
       MdEvent.end_ (.heading .h1), MdEvent.text "junk",
       MdEvent.start (.heading .h1), MdEvent.text "Tasks",
       MdEvent.end_ (.heading .h1), MdEvent.start (.heading .h2),
       MdEvent.text "Name", MdEvent.end_ (.heading .h2),
       MdEvent.text "body"]
      [Grouped.h1 "Notes", Grouped.content [MdEvent.text "junk"]]
      [Grouped.h1 "Tasks", Grouped.h2 "Name",
       Grouped.content [MdEvent.text "body"]]
      [{ entry_type := .task, entry_name := "Name",
         events := [MdEvent.text "body"] }]
      (by decide) (by decide) (by decide)⟩

/-- C6 (code bug): the claim says a zero-length maximal content run after
an emitted group is signalled as a fatal parsing error to the caller,
never a panic.  The code hits `panic!("Remove those!")` on exactly that
input: after the `Tasks` heading group, two consecutive H1 start tags
fail both heading matchers and measure a zero-length run. -/
theorem c6_zero_length_content_run_panics :
    getNoteOldFormatEntries
      [MdEvent.start (.heading .h1), MdEvent.text "Tasks",
       MdEvent.end_ (.heading .h1), MdEvent.start (.heading .h1),
       MdEvent.start (.heading .h1)] = .panicked := by
  decide

/-- C7 (counterexample): the claim says neither heading matcher returns a
successful result for a 3-event candidate whose start and end levels
differ.  `process_heading_event` only logs the mismatch and still
succeeds, returning the start level. -/
theorem c7_counterexample_mismatch_still_succeeds :
    processHeadingEvent [MdEvent.start (.heading .h2), MdEvent.text "x",
      MdEvent.end_ (.heading .h3)] = some (.h2, "x") := by
  decide

/-- C7 (amended): for a 3-event heading candidate with differing start
and end levels, `process_heading_event_of_level` (the section segmenter)
rejects it with the internal imbalanced-levels error, but the
level-agnostic `process_heading_event` (linkable extraction) accepts it,
logging only, and returns the start level with the text. -/
theorem c7_amended_only_fixed_level_matcher_rejects
    (l1 l2 : HeadingLevel) (s : String) (rest : List MdEvent)
    (h : l1 ≠ l2) :
    processHeadingEvent
        (.start (.heading l1) :: .text s :: .end_ (.heading l2) :: rest)
      = some (l1, s)
    ∧ processHeadingEventOfLevel l1
        (.start (.heading l1) :: .text s :: .end_ (.heading l2) :: rest)
      = .error (.internal .imbalancedHeadingLevels) := by
  constructor
  · rfl
  · simp only [processHeadingEventOfLevel]
    rw [if_neg (by simp), if_pos (fun hc => h hc.symm)]

/-- Witness for the amended C7 theorem at H1/H2. -/
theorem c7_amended_only_fixed_level_matcher_rejects_witness :
    processHeadingEvent [MdEvent.start (.heading .h1), MdEvent.text "t",
      MdEvent.end_ (.heading .h2)] = some (.h1, "t")
    ∧ processHeadingEventOfLevel .h1 [MdEvent.start (.heading .h1),
      MdEvent.text "t", MdEvent.end_ (.heading .h2)]
      = .error (.internal .imbalancedHeadingLevels) :=
  c7_amended_only_fixed_level_matcher_rejects .h1 .h2 "t" [] (by decide)

/-- C9 (confirmed): a bracketed token whose bracket-stripped remainder
has more than one `|` (and at most one `#`) fails with the
must-have-zero-or-one-bar error; more than one `#` fails with the
zero-or-one-hash error (checked first); and `parse_multiple_obsidian_links`
propagates a failing token — it never returns a successful (truncated or
token-dropping) list when any extracted token fails to parse. -/
theorem c9_link_arity_rejection :
    (∀ s : String, rsStartsWith s "[[" = true → rsEndsWith s "]]" = true →
      countChar (rsReplace (rsReplace s "[[" "") "]]" "") '#' ≤ 1 →
      1 < countChar (rsReplace (rsReplace s "[[" "") "]]" "") '|' →
      obsidianLinkFromStr s = .error (.mustHaveZeroOrOneBar
        (countChar (rsReplace (rsReplace s "[[" "") "]]" "") '|')
        (rsReplace (rsReplace s "[[" "") "]]" "")))
    ∧ (∀ s : String, rsStartsWith s "[[" = true → rsEndsWith s "]]" = true →
      1 < countChar (rsReplace (rsReplace s "[[" "") "]]" "") '#' →
      obsidianLinkFromStr s = .error (.mustHaveZeroOrOneHash
        (countChar (rsReplace (rsReplace s "[[" "") "]]" "") '#')
        (rsReplace (rsReplace s "[[" "") "]]" "")))
    ∧ (∀ (s t : String) (e : ObsidianLinkParseError) (r : List ObsidianLink),
      t ∈ extractLinkTokens s → obsidianLinkFromStr t = .error e →
      parseMultipleObsidianLinks s ≠ .ok r) := by
  refine ⟨obsidianLinkFromStr_bar_error, obsidianLinkFromStr_hash_error, ?_⟩
  intro s t e r hmem herr hok
  obtain ⟨y, hy⟩ := mapM_ok_of_mem obsidianLinkFromStr
    (extractLinkTokens s) r hok t hmem
  rw [herr] at hy
  exact Except.noConfusion hy

/-- Witness for C9 at `[[a|b|c]]` (two bars) and `[[a#b#c]]` (two
hashes), with the failing token embedded in surrounding prose for the
propagation part. -/
theorem c9_link_arity_rejection_witness :
    obsidianLinkFromStr "[[a|b|c]]"
      = .error (.mustHaveZeroOrOneBar 2 "a|b|c")
    ∧ obsidianLinkFromStr "[[a#b#c]]"
      = .error (.mustHaveZeroOrOneHash 2 "a#b#c")
    ∧ parseMultipleObsidianLinks "x [[a|b|c]] y" ≠ .ok [] := by
  refine ⟨?_, ?_, ?_⟩
  · exact (c9_link_arity_rejection.1 "[[a|b|c]]" (by decide) (by decide)
      (by decide) (by decide)).trans (by decide)
  · exact (c9_link_arity_rejection.2.1 "[[a#b#c]]" (by decide) (by decide)
      (by decide)).trans (by decide)
  · exact c9_link_arity_rejection.2.2 "x [[a|b|c]] y" "[[a|b|c]]"
      (.mustHaveZeroOrOneBar 2 "a|b|c") [] (by decide) (by decide)

/-- C10 (code bug): the claim says `context_type_is_doer` returns `false`
for every index that is not valid for the 7-entry table.  The bounds
guard tests `id > 7` instead of `id >= 7`, so index `7` slips past the
guard and the table access panics (modelled as `none`), while `8` is
correctly rejected with `false` and the last valid index `6` (`"Tasks"`)
is a doer. -/
theorem c10_context_type_is_doer_panics_at_seven :
    contextTypeIsDoer 7 = none
    ∧ contextTypeIsDoer 8 = some false
    ∧ contextTypeIsDoer 6 = some true := by
  refine ⟨by decide, by decide, by decide⟩

end ObsidianMigration
